import Mathlib

/-!
Verification development for the Lurky RAG service (src/src/rag/rag.service.ts).

The service pipeline is: translate the question to English, search a Pinecone
namespace over HTTP, assemble retrieved fragments into a context string, and
generate an answer; a single try/catch around the whole of `ask` converts any
exception into a degraded result.

External effects (LLM invocation, index host lookup, HTTP fetch) are modelled
as an environment of functions returning `Except String`; JavaScript values
appearing in the search response are modelled by the inductive `JSValue`,
with JavaScript truthiness, property access (plain and optional chaining),
`JSON.stringify` and `Array.prototype.join` element conversion embedded as
executable Lean functions.
-/

/-- A JavaScript value as it occurs in the parsed JSON search response
(plus `undefined`, which property access can produce). -/
inductive JSValue where
  | undefined : JSValue
  | null : JSValue
  | bool : Bool → JSValue
  | num : Int → JSValue
  | str : String → JSValue
  | arr : List JSValue → JSValue
  | obj : List (String × JSValue) → JSValue
deriving Repr

/-- JavaScript truthiness of a value. -/
def truthy : JSValue → Bool
  | .undefined => false
  | .null => false
  | .bool b => b
  | .num n => n != 0
  | .str s => s != ""
  | .arr _ => true
  | .obj _ => true

/-- JavaScript `a || b`. -/
def jsOr (a b : JSValue) : JSValue := if truthy a then a else b

/-- First binding of a key in an object literal. -/
def jsLookup : List (String × JSValue) → String → Option JSValue
  | [], _ => none
  | (k, v) :: rest, key => if k = key then some v else jsLookup rest key

/-- Property access `v.key` on a value that is neither null nor undefined:
objects yield the bound value or `undefined`; primitives and arrays yield
`undefined` for the property names used by this program. -/
def jsProp (v : JSValue) (key : String) : JSValue :=
  match v with
  | .obj kvs => (jsLookup kvs key).getD .undefined
  | _ => .undefined

/-- Property access `v.key` that throws a TypeError on null or undefined,
as plain (non-optional) JavaScript member access does. -/
def jsPropE (v : JSValue) (key : String) : Except String JSValue :=
  match v with
  | .null => .error ("TypeError: Cannot read properties of null (reading " ++ key ++ ")")
  | .undefined => .error ("TypeError: Cannot read properties of undefined (reading " ++ key ++ ")")
  | v => .ok (jsProp v key)

/-- Optional chaining `v?.key`: null and undefined short-circuit to undefined. -/
def jsOptProp (v : JSValue) (key : String) : JSValue :=
  match v with
  | .null => .undefined
  | .undefined => .undefined
  | v => jsProp v key

/-- JSON escaping of a single character (quote, backslash and the common
control characters; everything else verbatim). -/
def escapeJsonChar (c : Char) : String :=
  if c = Char.ofNat 34 then String.singleton (Char.ofNat 92) ++ String.singleton (Char.ofNat 34)
  else if c = Char.ofNat 92 then String.singleton (Char.ofNat 92) ++ String.singleton (Char.ofNat 92)
  else if c = Char.ofNat 10 then String.singleton (Char.ofNat 92) ++ "n"
  else if c = Char.ofNat 13 then String.singleton (Char.ofNat 92) ++ "r"
  else if c = Char.ofNat 9 then String.singleton (Char.ofNat 92) ++ "t"
  else String.singleton c

/-- A JSON string literal for `s`. -/
def jsonQuote (s : String) : String :=
  String.singleton (Char.ofNat 34) ++ String.join (s.toList.map escapeJsonChar) ++ String.singleton (Char.ofNat 34)

mutual

/-- `JSON.stringify`: `none` for undefined (JavaScript returns the value
`undefined`), otherwise the serialized text. -/
def stringify : JSValue → Option String
  | .undefined => none
  | .null => some "null"
  | .bool b => some (cond b "true" "false")
  | .num n => some (toString n)
  | .str s => some (jsonQuote s)
  | .arr xs => some ("[" ++ String.intercalate "," (stringifyElems xs) ++ "]")
  | .obj kvs => some ("\x7b" ++ String.intercalate "," (stringifyMembers kvs) ++ "\x7d")

/-- Array elements under `JSON.stringify`: undefined serializes as null. -/
def stringifyElems : List JSValue → List String
  | [] => []
  | x :: xs =>
    (match stringify x with
     | none => "null"
     | some s => s) :: stringifyElems xs

/-- Object members under `JSON.stringify`: members whose value is undefined
are omitted. -/
def stringifyMembers : List (String × JSValue) → List String
  | [] => []
  | (k, v) :: rest =>
    match stringify v with
    | none => stringifyMembers rest
    | some s => (jsonQuote k ++ ":" ++ s) :: stringifyMembers rest

end

mutual

/-- JavaScript `String(v)` for a defined value. -/
def jsToDisplayString : JSValue → String
  | .undefined => "undefined"
  | .null => "null"
  | .bool b => cond b "true" "false"
  | .num n => toString n
  | .str s => s
  | .obj _ => "[object Object]"
  | .arr xs => String.intercalate "," (displayElems xs)

/-- `Array.prototype.toString` element conversion: null and undefined
become the empty string. -/
def displayElems : List JSValue → List String
  | [] => []
  | x :: xs =>
    (match x with
     | .undefined => ""
     | .null => ""
     | v => jsToDisplayString v) :: displayElems xs

end

/-- Element conversion applied by `Array.prototype.join`: null and undefined
contribute the empty string, every other value its `String(v)` form. -/
def joinElemString : JSValue → String
  | .undefined => ""
  | .null => ""
  | v => jsToDisplayString v

/-- `some s` as a JavaScript string value, `none` as undefined; used to inject
the result of `JSON.stringify` back into an expression. -/
def jsonStrOrUndef : Option String → JSValue
  | none => .undefined
  | some s => .str s

/-- Drop leading whitespace characters from a character list. -/
def dropLeadingWs : List Char → List Char
  | [] => []
  | c :: cs => if c.isWhitespace then dropLeadingWs cs else c :: cs

/-- JavaScript `String.prototype.trim`: strip leading and trailing
whitespace. -/
def jsTrim (s : String) : String :=
  String.mk (List.reverse (dropLeadingWs (List.reverse (dropLeadingWs s.toList))))

/-- Configuration of a `ChatGoogleGenerativeAI` client: model name and
sampling temperature. -/
structure LLMConfig where
  model : String
  temperature : Rat
deriving Repr, DecidableEq

/-- The single LLM client built in the `RagService` constructor:
`new ChatGoogleGenerativeAI( model gemini-2.5-flash, temperature 0.3 )`.
Both the translation chain and the answer chain pipe this same client. -/
def ragLLM : LLMConfig := ⟨"gemini-2.5-flash", 3/10⟩

/-- The subset of a `fetch` response the code reads: `ok`, `statusText`, and
the parsed JSON body. -/
structure FetchResponse where
  ok : Bool
  statusText : String
  json : JSValue

/-- The external world as the service sees it: an LLM invocation (a prompt
template plus its named slot values, run against a client configuration),
the Pinecone `describeIndex` host lookup, and the HTTP search `fetch`.
Each may fail with an exception message. -/
structure Env where
  llmInvoke : LLMConfig → String → List (String × String) → Except String String
  describeIndex : Except String String
  fetch : String → JSValue → Except String FetchResponse

/-- The translation prompt template (the TypeScript template literal in
`translateToEnglish`, verbatim). -/
def translationTemplate : String := "
    You are a professional translator.
    Translate the following text to **English**.
    If the text is already in English, return it exactly as is.
    Do not add any explanations, notes, or extra punctuation. Just the translated text.

    Text: {text}
    "

/-- The answer prompt template (the TypeScript template literal `finalTemplate`
in `ask`, verbatim). -/
def finalTemplate : String := "
      You are \"Lurky Bot\", the official AI assistant for the Lurky brand.

      Task:
      Answer the question based strictly on the provided Context.

      CRITICAL INSTRUCTION:
      The user asked the question in this language: \"{original_question}\".
      **You MUST answer in the same language as the \"{original_question}\".**
      (e.g., if the user asked in Chinese, answer in Chinese. If French, answer in French).

      Context Information:
      {context}

      English Translated Question (for your understanding):
      {english_question}

      Original User Question (Target Language):
      {original_question}
      "

/-- `translateToEnglish`: run the translation chain on the single LLM client
and trim the result. There is no try/catch here: a failing invocation
propagates. -/
def translateToEnglish (env : Env) (text : String) : Except String String :=
  match env.llmInvoke ragLLM translationTemplate [("text", text)] with
  | .error e => .error e
  | .ok res => .ok (jsTrim res)

/-- The hardcoded Pinecone namespace used by `ask`. -/
def NAMESPACE : String := "lurky-products"

/-- The search URL built in `ask`. -/
def searchUrl (host : String) : String :=
  "https://" ++ host ++ "/records/namespaces/" ++ NAMESPACE ++ "/search"

/-- The JSON body of the search request built in `ask`:
query.inputs.text is the English question, query.top_k is 4, and the
requested fields are id and text. -/
def searchBody (englishQuestion : String) : JSValue :=
  .obj [("query", .obj [("inputs", .obj [("text", .str englishQuestion)]),
                        ("top_k", .num 4)]),
        ("fields", .arr [.str "id", .str "text"])]

/-- The per-hit rendering in the context assembly:
`hit.fields?.combined_context || JSON.stringify(hit.fields)`, followed by the
element conversion `join` applies. Plain access `hit.fields` throws when the
hit itself is null or undefined. -/
def renderHit (hit : JSValue) : Except String String :=
  match jsPropE hit "fields" with
  | .error e => .error e
  | .ok fields =>
    .ok (joinElemString (jsOr (jsOptProp fields "combined_context") (jsonStrOrUndef (stringify fields))))

/-- The list of rendered fragments, failing at the first hit whose rendering
throws (as `Array.prototype.map` does). -/
def assembleContextParts : List JSValue → Except String (List String)
  | [] => .ok []
  | h :: t =>
    match renderHit h with
    | .error e => .error e
    | .ok s =>
      match assembleContextParts t with
      | .error e => .error e
      | .ok ss => .ok (s :: ss)

/-- The fixed fragment separator in the assembled context. -/
def contextSeparator : String := "\n\n---\n\n"

/-- Context assembly in `ask`:
`hits.map(renderHit).join(separator)`. -/
def assembleContext (hits : List JSValue) : Except String String :=
  match assembleContextParts hits with
  | .error e => .error e
  | .ok parts => .ok (String.intercalate contextSeparator parts)

/-- The hardcoded no-information answer returned when retrieval yields no hits. -/
def noInfoAnswer : String := "No relevant product information found. (未找到相关产品信息)"

/-- The hardcoded degraded-mode answer returned by the catch block of `ask`. -/
def degradedAnswer : String := "系统繁忙，请稍后再试 (System Error)."

/-- The shapes `ask` can return, as one record of optional keys: the three
object literals in the source set different subsets of
question / originalQuestion / englishQuestion / answer / error. -/
structure AnswerResult where
  question : Option String
  originalQuestion : Option String
  englishQuestion : Option String
  answer : String
  error : Option String
deriving Repr, DecidableEq

/-- The catch-block result of `ask`:
question, the degraded answer, and the exception message. -/
def degradedResult (q e : String) : AnswerResult :=
  ⟨some q, none, none, degradedAnswer, some e⟩

/-- The empty-retrieval result of `ask`:
question, englishQuestion, and the no-information answer. -/
def noInfoResult (q eq : String) : AnswerResult :=
  ⟨some q, none, some eq, noInfoAnswer, none⟩

/-- The success result of `ask`:
originalQuestion, englishQuestion, and the generated answer. -/
def successResult (q eq answer : String) : AnswerResult :=
  ⟨none, some q, some eq, answer, none⟩

/-- The lazy host resolution at the top of the try block:
`if (!this.indexHost) this.indexHost = (await describeIndex(...)).host`.
The empty string is the unresolved (falsy) state. -/
def resolveHost (env : Env) (host : String) : Except String String :=
  if host = "" then env.describeIndex else Except.ok host

/-- Step 3 of `ask`: assemble the context from the non-empty hit list and run
the answer chain (the same LLM client, the `finalTemplate` prompt, and the
three named slots of the source). -/
def answerStage (env : Env) (q eq : String) (xs : List JSValue) : Except String AnswerResult :=
  match assembleContext xs with
  | .error e => .error e
  | .ok context =>
    match env.llmInvoke ragLLM finalTemplate
      [("context", context), ("english_question", eq), ("original_question", q)] with
    | .error e => .error e
    | .ok answer => .ok (successResult q eq answer)

/-- The branch on the extracted hits value: an empty array short-circuits to
the no-information result, a non-empty array goes on to context assembly and
generation, and a truthy non-array value makes `hits.length` / `hits.map`
throw. -/
def hitsStage (env : Env) (q eq : String) (hits : JSValue) : Except String AnswerResult :=
  match hits with
  | .arr xs =>
    if xs.length = 0 then .ok (noInfoResult q eq)
    else answerStage env q eq xs
  | _ => .error "TypeError: hits.map is not a function"

/-- Step 2 of `ask`: POST the search request, throw on a non-success status,
and extract `searchResult.result?.hits || []` from the JSON body. -/
def searchStage (env : Env) (host : String) (q eq : String) : Except String AnswerResult :=
  match env.fetch (searchUrl host) (searchBody eq) with
  | .error e => .error e
  | .ok resp =>
    if resp.ok = false then .error ("Pinecone Search Error: " ++ resp.statusText)
    else
      match jsPropE resp.json "result" with
      | .error e => .error e
      | .ok rv => hitsStage env q eq (jsOr (jsOptProp rv "hits") (JSValue.arr []))

/-- The body of the try block of `ask` after the host is resolved: translate,
then search / short-circuit / assemble / generate. Every `.error` here is an
exception the catch block will convert. -/
def askAfterHost (env : Env) (host : String) (q : String) : Except String AnswerResult :=
  match translateToEnglish env q with
  | .error e => .error e
  | .ok eq => searchStage env host q eq

/-- `ask` with the memoized `indexHost` field made explicit: the pair is the
returned result and the field value after the call. A successful host
resolution persists even if a later stage throws; the catch block turns any
exception into `degradedResult`. -/
def ask (env : Env) (host : String) (q : String) : AnswerResult × String :=
  match resolveHost env host with
  | .error e => (degradedResult q e, host)
  | .ok host1 =>
    match askAfterHost env host1 q with
    | .error e => (degradedResult q e, host1)
    | .ok r => (r, host1)

/-- `onModuleInit`: try to resolve the host at startup; on failure the error
is logged and the field keeps its previous (empty) value. -/
def onModuleInit (env : Env) (host : String) : String :=
  match env.describeIndex with
  | .ok h => h
  | .error _ => host

/-- Decidable equality for `Except`, used to evaluate concrete runs. -/
instance exceptDecEq {ε α : Type} [DecidableEq ε] [DecidableEq α] :
    DecidableEq (Except ε α) := fun x y =>
  match x, y with
  | .ok a, .ok b =>
    if h : a = b then .isTrue (by rw [h]) else .isFalse (fun hc => h (Except.ok.inj hc))
  | .error a, .error b =>
    if h : a = b then .isTrue (by rw [h]) else .isFalse (fun hc => h (Except.error.inj hc))
  | .ok _, .error _ => .isFalse (fun hc => Except.noConfusion hc)
  | .error _, .ok _ => .isFalse (fun hc => Except.noConfusion hc)

/-- The total per-hit rendering, defined on hits that are not null or
undefined: the truthy `combined_context` text if there is one, otherwise the
`JSON.stringify` dump of the raw `fields` value. -/
def renderHitTotal (hit : JSValue) : String :=
  joinElemString (jsOr (jsOptProp (jsProp hit "fields") "combined_context")
    (jsonStrOrUndef (stringify (jsProp hit "fields"))))

/-- A world where every LLM invocation fails with message boom. -/
def envTrFail : Env :=
  ⟨fun _ _ _ => .error "boom", .ok "host0", fun _ _ => .error "nofetch"⟩

/-- A world where translation succeeds and the search responds with a
non-success HTTP status. -/
def envSearchFail : Env :=
  ⟨fun _ _ _ => .ok "eng", .ok "hostA", fun _ _ => .ok ⟨false, "Unauthorized", .null⟩⟩

/-- A world where the search succeeds with an empty hit list. -/
def envEmptyHits : Env :=
  ⟨fun _ tpl _ => if tpl = translationTemplate then .ok " english q " else .ok "gen-answer",
   .ok "h1",
   fun _ _ => .ok ⟨true, "OK", .obj [("result", .obj [("hits", .arr [])])]⟩⟩

/-- An LLM stub that agrees with `envEmptyHits` on the translation call and
fails on any other prompt; used to observe that the answer chain is never
run on the empty-retrieval path. -/
def genStub : LLMConfig → String → List (String × String) → Except String String :=
  fun _ tpl _ => if tpl = translationTemplate then .ok " english q " else .error "generator invoked"

/-- A world where the search succeeds but the body has no result key. -/
def envNoResult : Env :=
  ⟨fun _ _ _ => .ok "eng", .ok "h2", fun _ _ => .ok ⟨true, "OK", .obj [("status", .str "ok")]⟩⟩

/-- A world whose host lookup succeeds with host hx. -/
def envOkResolve : Env :=
  ⟨fun _ _ _ => .ok "eng", .ok "hx",
   fun _ _ => .ok ⟨true, "OK", .obj [("result", .obj [("hits", .arr [])])]⟩⟩

/-- A world whose host lookup fails. -/
def envBadResolve : Env :=
  ⟨fun _ _ _ => .ok "eng", .error "resolve failed", fun _ _ => .ok ⟨true, "OK", .null⟩⟩

/-- A concrete hit carrying a truthy combined_context text. -/
def hit1 : JSValue := .obj [("fields", .obj [("combined_context", .str "ctx one")])]

/-- A concrete hit with no combined_context entry. -/
def hit2 : JSValue := .obj [("fields", .obj [("id", .str "a"), ("text", .str "b")])]

/-- A concrete hit whose combined_context entry is the empty string. -/
def hitEmptyCtx : JSValue :=
  .obj [("fields", .obj [("combined_context", .str ""), ("id", .str "x")])]

lemma jsPropE_of_defined {hit : JSValue} (h1 : hit ≠ JSValue.null) (h2 : hit ≠ JSValue.undefined)
    (key : String) : jsPropE hit key = Except.ok (jsProp hit key) := by
  cases hit with
  | null => exact absurd rfl h1
  | undefined => exact absurd rfl h2
  | bool b => rfl
  | num n => rfl
  | str s => rfl
  | arr xs => rfl
  | obj kvs => rfl

lemma renderHit_eq_total {hit : JSValue} (h1 : hit ≠ JSValue.null) (h2 : hit ≠ JSValue.undefined) :
    renderHit hit = Except.ok (renderHitTotal hit) := by
  unfold renderHit
  rw [jsPropE_of_defined h1 h2]
  rfl

lemma assembleContextParts_eq_map {hits : List JSValue}
    (hdef : ∀ h ∈ hits, h ≠ JSValue.null ∧ h ≠ JSValue.undefined) :
    assembleContextParts hits = Except.ok (hits.map renderHitTotal) := by
  induction hits with
  | nil => rfl
  | cons x xs ih =>
    have hx := hdef x (List.mem_cons_self x xs)
    have hxs : ∀ h ∈ xs, h ≠ JSValue.null ∧ h ≠ JSValue.undefined :=
      fun h hm => hdef h (List.mem_cons_of_mem x hm)
    unfold assembleContextParts
    rw [renderHit_eq_total hx.1 hx.2, ih hxs]
    rfl

lemma jsOr_of_falsy {a : JSValue} (h : truthy a = false) (b : JSValue) : jsOr a b = b := by
  simp [jsOr, h]

lemma resolveHost_of_ne (env : Env) {host : String} (h : host ≠ "") :
    resolveHost env host = Except.ok host := by
  unfold resolveHost
  rw [if_neg h]

lemma ask_of_resolve_error {env : Env} {host e : String} (q : String)
    (h : resolveHost env host = Except.error e) :
    ask env host q = (degradedResult q e, host) := by
  unfold ask
  rw [h]

lemma ask_of_resolve_ok {env : Env} {host host1 : String} (q : String)
    (h : resolveHost env host = Except.ok host1) :
    ask env host q =
      match askAfterHost env host1 q with
      | .error e => (degradedResult q e, host1)
      | .ok r => (r, host1) := by
  unfold ask
  rw [h]

lemma translateToEnglish_of_ok {env : Env} {q res : String}
    (h : env.llmInvoke ragLLM translationTemplate [("text", q)] = Except.ok res) :
    translateToEnglish env q = Except.ok (jsTrim res) := by
  unfold translateToEnglish
  rw [h]

lemma translateToEnglish_of_error {env : Env} {q e : String}
    (h : env.llmInvoke ragLLM translationTemplate [("text", q)] = Except.error e) :
    translateToEnglish env q = Except.error e := by
  unfold translateToEnglish
  rw [h]

lemma askAfterHost_of_tr_ok {env : Env} {q eq : String} (host : String)
    (h : translateToEnglish env q = Except.ok eq) :
    askAfterHost env host q = searchStage env host q eq := by
  unfold askAfterHost
  rw [h]

lemma askAfterHost_of_tr_error {env : Env} {q e : String} (host : String)
    (h : translateToEnglish env q = Except.error e) :
    askAfterHost env host q = Except.error e := by
  unfold askAfterHost
  rw [h]

lemma searchStage_of_fetch_ok {env : Env} {host eq : String} {resp : FetchResponse} (q : String)
    (h : env.fetch (searchUrl host) (searchBody eq) = Except.ok resp) :
    searchStage env host q eq =
      if resp.ok = false then Except.error ("Pinecone Search Error: " ++ resp.statusText)
      else
        match jsPropE resp.json "result" with
        | .error e => .error e
        | .ok rv => hitsStage env q eq (jsOr (jsOptProp rv "hits") (JSValue.arr [])) := by
  unfold searchStage
  rw [h]

lemma searchStage_status_error {env : Env} {host eq : String} {resp : FetchResponse} (q : String)
    (h : env.fetch (searchUrl host) (searchBody eq) = Except.ok resp)
    (hok : resp.ok = false) :
    searchStage env host q eq =
      Except.error ("Pinecone Search Error: " ++ resp.statusText) := by
  rw [searchStage_of_fetch_ok q h, if_pos hok]

lemma searchStage_status_ok {env : Env} {host eq : String} {resp : FetchResponse} {rv : JSValue}
    (q : String)
    (h : env.fetch (searchUrl host) (searchBody eq) = Except.ok resp)
    (hok : resp.ok = true)
    (hrv : jsPropE resp.json "result" = Except.ok rv) :
    searchStage env host q eq =
      hitsStage env q eq (jsOr (jsOptProp rv "hits") (JSValue.arr [])) := by
  rw [searchStage_of_fetch_ok q h, if_neg (by simp [hok]), hrv]

lemma hitsStage_empty (env : Env) (q eq : String) :
    hitsStage env q eq (JSValue.arr []) = Except.ok (noInfoResult q eq) := rfl


lemma searchStage_of_fetch_error {env : Env} {host eq e : String} (q : String)
    (h : env.fetch (searchUrl host) (searchBody eq) = Except.error e) :
    searchStage env host q eq = Except.error e := by
  unfold searchStage
  rw [h]

lemma hitsStage_arr (env : Env) (q eq : String) (xs : List JSValue) :
    hitsStage env q eq (JSValue.arr xs) =
      if xs.length = 0 then Except.ok (noInfoResult q eq) else answerStage env q eq xs := rfl

lemma answerStage_of_ac_error {env : Env} {q eq e : String} {xs : List JSValue}
    (h : assembleContext xs = Except.error e) :
    answerStage env q eq xs = Except.error e := by
  unfold answerStage
  rw [h]

lemma answerStage_of_ac_ok {env : Env} {q eq c : String} {xs : List JSValue}
    (h : assembleContext xs = Except.ok c) :
    answerStage env q eq xs =
      match env.llmInvoke ragLLM finalTemplate
        [("context", c), ("english_question", eq), ("original_question", q)] with
      | .error e => .error e
      | .ok a => .ok (successResult q eq a) := by
  unfold answerStage
  rw [h]

lemma answerStage_congr (env env2 : Env) (q eq : String) (xs : List JSValue)
    (hllm : env2.llmInvoke = env.llmInvoke) :
    answerStage env2 q eq xs = answerStage env q eq xs := by
  unfold answerStage
  rw [hllm]

lemma hitsStage_congr (env env2 : Env) (q eq : String) (hits : JSValue)
    (hllm : env2.llmInvoke = env.llmInvoke) :
    hitsStage env2 q eq hits = hitsStage env q eq hits := by
  cases hits with
  | arr xs =>
    rw [hitsStage_arr, hitsStage_arr]
    by_cases hl : xs.length = 0
    · rw [if_pos hl, if_pos hl]
    · rw [if_neg hl, if_neg hl]
      exact answerStage_congr env env2 q eq xs hllm
  | undefined => rfl
  | null => rfl
  | bool b => rfl
  | num n => rfl
  | str s => rfl
  | obj kvs => rfl

lemma searchStage_congr (env env2 : Env) (host q eq : String)
    (hllm : env2.llmInvoke = env.llmInvoke)
    (hfetch : env2.fetch (searchUrl host) (searchBody eq) =
      env.fetch (searchUrl host) (searchBody eq)) :
    searchStage env2 host q eq = searchStage env host q eq := by
  cases h : env.fetch (searchUrl host) (searchBody eq) with
  | error e =>
    rw [@searchStage_of_fetch_error env2 host eq e q (hfetch.trans h),
        @searchStage_of_fetch_error env host eq e q h]
  | ok resp =>
    rw [@searchStage_of_fetch_ok env2 host eq resp q (hfetch.trans h),
        @searchStage_of_fetch_ok env host eq resp q h]
    by_cases hok : resp.ok = false
    · rw [if_pos hok, if_pos hok]
    · rw [if_neg hok, if_neg hok]
      cases hrv : jsPropE resp.json "result" with
      | error e => rfl
      | ok rv => exact hitsStage_congr env env2 q eq _ hllm

lemma askAfterHost_congr (env env2 : Env) (host q : String)
    (hllm : env2.llmInvoke = env.llmInvoke)
    (hfetch : env2.fetch = env.fetch) :
    askAfterHost env2 host q = askAfterHost env host q := by
  cases h : translateToEnglish env q with
  | error e =>
    have h2 : translateToEnglish env2 q = Except.error e := by
      unfold translateToEnglish at h ⊢
      rw [hllm]
      exact h
    rw [askAfterHost_of_tr_error host h2, askAfterHost_of_tr_error host h]
  | ok eq =>
    have h2 : translateToEnglish env2 q = Except.ok eq := by
      unfold translateToEnglish at h ⊢
      rw [hllm]
      exact h
    rw [askAfterHost_of_tr_ok host h2, askAfterHost_of_tr_ok host h]
    exact searchStage_congr env env2 host q eq hllm (by rw [hfetch])

lemma ask_congr (env env2 : Env) (host q : String)
    (hllm : env2.llmInvoke = env.llmInvoke)
    (hfetch : env2.fetch = env.fetch)
    (hres : resolveHost env2 host = resolveHost env host) :
    ask env2 host q = ask env host q := by
  cases h : resolveHost env host with
  | error e =>
    rw [@ask_of_resolve_error env2 host e q (hres.trans h),
        @ask_of_resolve_error env host e q h]
  | ok host1 =>
    rw [@ask_of_resolve_ok env2 host host1 q (hres.trans h),
        @ask_of_resolve_ok env host host1 q h,
        askAfterHost_congr env env2 host1 q hllm hfetch]

lemma searchStage_result_error {env : Env} {host eq e : String} {resp : FetchResponse}
    (q : String)
    (hf : env.fetch (searchUrl host) (searchBody eq) = Except.ok resp)
    (hok : resp.ok = true)
    (hrv : jsPropE resp.json "result" = Except.error e) :
    searchStage env host q eq = Except.error e := by
  rw [searchStage_of_fetch_ok q hf, if_neg (by simp [hok]), hrv]

lemma askAfterHost_shape (env : Env) (host q : String) :
    (∃ e, askAfterHost env host q = Except.error e)
  ∨ (∃ eq, translateToEnglish env q = Except.ok eq ∧
      askAfterHost env host q = Except.ok (noInfoResult q eq))
  ∨ (∃ eq a, translateToEnglish env q = Except.ok eq ∧
      askAfterHost env host q = Except.ok (successResult q eq a)) := by
  cases htr : translateToEnglish env q with
  | error e => exact Or.inl ⟨e, askAfterHost_of_tr_error host htr⟩
  | ok eq =>
    rw [askAfterHost_of_tr_ok host htr]
    cases hf : env.fetch (searchUrl host) (searchBody eq) with
    | error e => exact Or.inl ⟨e, searchStage_of_fetch_error q hf⟩
    | ok resp =>
      cases hok : resp.ok with
      | false => exact Or.inl ⟨_, searchStage_status_error q hf hok⟩
      | true =>
        cases hrv : jsPropE resp.json "result" with
        | error e => exact Or.inl ⟨e, searchStage_result_error q hf hok hrv⟩
        | ok rv =>
          rw [searchStage_status_ok q hf hok hrv]
          cases hhits : jsOr (jsOptProp rv "hits") (JSValue.arr []) with
          | arr xs =>
            rw [hitsStage_arr]
            by_cases hl : xs.length = 0
            · rw [if_pos hl]
              exact Or.inr (Or.inl ⟨eq, rfl, rfl⟩)
            · rw [if_neg hl]
              cases hac : assembleContext xs with
              | error e => exact Or.inl ⟨e, answerStage_of_ac_error hac⟩
              | ok c =>
                rw [answerStage_of_ac_ok hac]
                cases hg : env.llmInvoke ragLLM finalTemplate
                    [("context", c), ("english_question", eq), ("original_question", q)] with
                | error e => exact Or.inl ⟨e, rfl⟩
                | ok a => exact Or.inr (Or.inr ⟨eq, a, rfl, rfl⟩)
          | undefined => exact Or.inl ⟨_, rfl⟩
          | null => exact Or.inl ⟨_, rfl⟩
          | bool b => exact Or.inl ⟨_, rfl⟩
          | num n => exact Or.inl ⟨_, rfl⟩
          | str s => exact Or.inl ⟨_, rfl⟩
          | obj kvs => exact Or.inl ⟨_, rfl⟩

lemma ask_shape (env : Env) (host q : String) :
    (∃ e, (ask env host q).1 = degradedResult q e)
  ∨ (∃ eq, translateToEnglish env q = Except.ok eq ∧ (ask env host q).1 = noInfoResult q eq)
  ∨ (∃ eq a, translateToEnglish env q = Except.ok eq ∧
      (ask env host q).1 = successResult q eq a) := by
  cases hr : resolveHost env host with
  | error e =>
    refine Or.inl ⟨e, ?_⟩
    rw [ask_of_resolve_error q hr]
  | ok host1 =>
    rcases askAfterHost_shape env host1 q with ⟨e, h⟩ | ⟨eq, htr, h⟩ | ⟨eq, a, htr, h⟩
    · refine Or.inl ⟨e, ?_⟩
      rw [ask_of_resolve_ok q hr, h]
    · refine Or.inr (Or.inl ⟨eq, htr, ?_⟩)
      rw [ask_of_resolve_ok q hr, h]
    · refine Or.inr (Or.inr ⟨eq, a, htr, ?_⟩)
      rw [ask_of_resolve_ok q hr, h]

set_option maxRecDepth 100000

/-- Claim C1: for every question and every behaviour of the external
generation and index calls, `ask` never throws and always returns a result:
either the result has no error, or its answer is the fixed degraded-mode
message with the error field carrying the exception description; in
particular, when the index search response has a non-success status, the
result is exactly the degraded result whose error is the Pinecone search
error description built from the status text. -/
theorem ask_never_throws_contract (env : Env) (host q : String) :
    ((ask env host q).1.error = none
      ∨ ((ask env host q).1.answer = degradedAnswer ∧ ∃ e, (ask env host q).1.error = some e))
  ∧ (∀ host1 eq resp,
      resolveHost env host = Except.ok host1 →
      translateToEnglish env q = Except.ok eq →
      env.fetch (searchUrl host1) (searchBody eq) = Except.ok resp →
      resp.ok = false →
      (ask env host q).1 = degradedResult q ("Pinecone Search Error: " ++ resp.statusText)) := by
  constructor
  · rcases ask_shape env host q with ⟨e, h⟩ | ⟨eq, _, h⟩ | ⟨eq, a, _, h⟩
    · rw [h]
      exact Or.inr ⟨rfl, e, rfl⟩
    · rw [h]
      exact Or.inl rfl
    · rw [h]
      exact Or.inl rfl
  · intro host1 eq resp hres htr hf hok
    rw [ask_of_resolve_ok q hres, askAfterHost_of_tr_ok host1 htr,
        searchStage_status_error q hf hok]

/-- Claim C1 witness: in the concrete world `envSearchFail`, whose search
responds with a non-success status Unauthorized, `ask` returns the degraded
result with the Pinecone error description. -/
theorem ask_never_throws_contract_witness :
    (ask envSearchFail "hostA" "hi").1
      = degradedResult "hi" ("Pinecone Search Error: " ++ "Unauthorized")
  ∧ (ask envSearchFail "hostA" "hi").1.error = some "Pinecone Search Error: Unauthorized" := by
  have h := (ask_never_throws_contract envSearchFail "hostA" "hi").2 "hostA" "eng"
    ⟨false, "Unauthorized", JSValue.null⟩ rfl rfl rfl rfl
  refine ⟨h, ?_⟩
  rw [h]
  rfl

/-- Claim C5 counterexample: the claim says the result carries the original
question and the canonical query on every path, but on the failure path the
returned object is the catch-block literal, which has no englishQuestion
(canonical query) and no originalQuestion key at all: concretely, with a
failing translation call, the result of `ask` carries neither. -/
theorem ask_error_path_lacks_canonical_query_cex :
    (ask envTrFail "host0" "hello").1.englishQuestion = none
  ∧ (ask envTrFail "host0" "hello").1.originalQuestion = none
  ∧ (ask envTrFail "host0" "hello").1.question = some "hello"
  ∧ (ask envTrFail "host0" "hello").1.error = some "boom" :=
  ⟨rfl, rfl, rfl, rfl⟩

/-- Claim C5 (amended): on every path `ask` returns one of exactly three
shapes: the success literal (originalQuestion, englishQuestion, answer, no
error), the empty-retrieval literal (question, englishQuestion, the fixed
no-information answer, no error), or the catch-block literal (question, the
fixed degraded answer, error) — the last carries no canonical query. The
answer field is present on all three; error only on the last. -/
theorem ask_result_shape_by_path (env : Env) (host q : String) :
    (∃ e, (ask env host q).1 = degradedResult q e)
  ∨ (∃ eq, translateToEnglish env q = Except.ok eq ∧ (ask env host q).1 = noInfoResult q eq)
  ∨ (∃ eq a, translateToEnglish env q = Except.ok eq ∧
      (ask env host q).1 = successResult q eq a) :=
  ask_shape env host q

/-- Claim C4 counterexample: `translateToEnglish` does not fail closed: with
a failing generation call it returns the error, not the input unchanged. -/
theorem translateToEnglish_not_fail_closed_cex :
    translateToEnglish envTrFail "hello" = Except.error "boom"
  ∧ translateToEnglish envTrFail "hello" ≠ Except.ok "hello" :=
  ⟨rfl, by decide⟩

/-- Claim C4 (amended): when the underlying generation call fails,
`translateToEnglish` propagates the exception unchanged; it is `ask`'s
catch-all, not the normalizer, that converts the failure into the degraded
result. -/
theorem translateToEnglish_propagates_failure (env : Env) (host q e : String)
    (h : env.llmInvoke ragLLM translationTemplate [("text", q)] = Except.error e) :
    translateToEnglish env q = Except.error e
  ∧ (∀ host1, resolveHost env host = Except.ok host1 →
      ask env host q = (degradedResult q e, host1)) := by
  have htr := translateToEnglish_of_error h
  refine ⟨htr, fun host1 hres => ?_⟩
  rw [ask_of_resolve_ok q hres, askAfterHost_of_tr_error host1 htr]

/-- Claim C4 witness: the amended claim at the concrete world `envTrFail`. -/
theorem translateToEnglish_propagates_failure_witness :
    translateToEnglish envTrFail "hello" = Except.error "boom"
  ∧ ask envTrFail "host0" "hello" = (degradedResult "hello" "boom", "host0") := by
  have h := translateToEnglish_propagates_failure envTrFail "host0" "hello" "boom" rfl
  exact ⟨h.1, h.2 "host0" rfl⟩

/-- Claim C6: the claim (and the code's own doc comment on
`translateToEnglish`) says the translation request is issued with
temperature about 0, distinct from the answer request's 0.3; but the
constructor builds a single client with temperature 0.3 and both the
translation chain and the answer chain pipe that same client, so the
translation temperature is 3/10, not 0. -/
theorem translation_uses_answer_llm_config :
    ragLLM.temperature = 3/10
  ∧ ragLLM.temperature ≠ 0
  ∧ ragLLM.model = "gemini-2.5-flash"
  ∧ (∀ env text, translateToEnglish env text =
      (match env.llmInvoke ragLLM translationTemplate [("text", text)] with
       | .error e => Except.error e
       | .ok res => Except.ok (jsTrim res)))
  ∧ (∀ env q eq xs, answerStage env q eq xs =
      (match assembleContext xs with
       | .error e => Except.error e
       | .ok context =>
         match env.llmInvoke ragLLM finalTemplate
           [("context", context), ("english_question", eq), ("original_question", q)] with
         | .error e => Except.error e
         | .ok answer => Except.ok (successResult q eq answer))) :=
  ⟨rfl, by norm_num [ragLLM], rfl, fun env text => rfl, fun env q eq xs => rfl⟩

/-- Claim C2: when retrieval returns zero fragments, `ask` short-circuits to
the fixed bilingual no-information answer with no error, and the answer
generation step is never invoked: the result is unchanged under any
replacement of the LLM invocation that agrees on the translation call
(in particular one that fails on every other prompt). -/
theorem ask_empty_retrieval_short_circuits
    (env : Env) (f : LLMConfig → String → List (String × String) → Except String String)
    (host q host1 res : String) (resp : FetchResponse) (rv : JSValue)
    (hres : resolveHost env host = Except.ok host1)
    (htr0 : env.llmInvoke ragLLM translationTemplate [("text", q)] = Except.ok res)
    (hf : env.fetch (searchUrl host1) (searchBody (jsTrim res)) = Except.ok resp)
    (hok : resp.ok = true)
    (hrv : jsPropE resp.json "result" = Except.ok rv)
    (hhits : jsOr (jsOptProp rv "hits") (JSValue.arr []) = JSValue.arr [])
    (hagree : f ragLLM translationTemplate [("text", q)] =
      env.llmInvoke ragLLM translationTemplate [("text", q)]) :
    (ask env host q).1 = noInfoResult q (jsTrim res)
  ∧ (ask env host q).1.error = none
  ∧ ask { env with llmInvoke := f } host q = ask env host q := by
  have htr : translateToEnglish env q = Except.ok (jsTrim res) := translateToEnglish_of_ok htr0
  have hmain : ask env host q = (noInfoResult q (jsTrim res), host1) := by
    rw [ask_of_resolve_ok q hres, askAfterHost_of_tr_ok host1 htr,
        searchStage_status_ok q hf hok hrv, hhits, hitsStage_empty]
  have htrf : translateToEnglish { env with llmInvoke := f } q = Except.ok (jsTrim res) :=
    @translateToEnglish_of_ok { env with llmInvoke := f } q res (hagree.trans htr0)
  have hmainf : ask { env with llmInvoke := f } host q = (noInfoResult q (jsTrim res), host1) := by
    rw [@ask_of_resolve_ok { env with llmInvoke := f } host host1 q hres,
        askAfterHost_of_tr_ok host1 htrf,
        @searchStage_status_ok { env with llmInvoke := f } host1 (jsTrim res) resp rv q hf hok hrv,
        hhits, hitsStage_empty]
  refine ⟨?_, ?_, hmainf.trans hmain.symm⟩
  · rw [hmain]
  · rw [hmain]
    rfl

/-- Claim C2 witness: in `envEmptyHits` (search returns an empty hit list)
`ask` returns the no-information result, and swapping in `genStub`, which
fails on every prompt except the translation one, changes nothing. -/
theorem ask_empty_retrieval_short_circuits_witness :
    (ask envEmptyHits "h1" "hola").1 = noInfoResult "hola" "english q"
  ∧ ask { envEmptyHits with llmInvoke := genStub } "h1" "hola" = ask envEmptyHits "h1" "hola" := by
  have h := ask_empty_retrieval_short_circuits envEmptyHits genStub "h1" "hola" "h1"
    " english q " ⟨true, "OK", JSValue.obj [("result", JSValue.obj [("hits", JSValue.arr [])])]⟩
    (JSValue.obj [("hits", JSValue.arr [])]) rfl rfl rfl rfl rfl rfl rfl
  exact ⟨h.1, h.2.2⟩

/-- Claim C3: for a non-empty list of retrieved hits, none of which is null
or undefined, the assembled context is exactly each hit's rendering joined in
input order by the fixed separator; the rendering count equals the hit count
(nothing dropped, reordered or deduplicated), and a hit whose fields lack a
truthy combined_context text is rendered as the JSON dump of its raw fields
rather than dropped. -/
theorem assembleContext_joins_all_fragments_in_order
    (hits : List JSValue) (_hne : hits ≠ [])
    (hdef : ∀ h ∈ hits, h ≠ JSValue.null ∧ h ≠ JSValue.undefined) :
    assembleContext hits =
      Except.ok (String.intercalate contextSeparator (hits.map renderHitTotal))
  ∧ (hits.map renderHitTotal).length = hits.length
  ∧ (∀ h ∈ hits, truthy (jsOptProp (jsProp h "fields") "combined_context") = false →
      renderHitTotal h = joinElemString (jsonStrOrUndef (stringify (jsProp h "fields")))) := by
  refine ⟨?_, by simp, ?_⟩
  · unfold assembleContext
    rw [assembleContextParts_eq_map hdef]
  · intro h hm hfalsy
    unfold renderHitTotal
    rw [jsOr_of_falsy hfalsy]

/-- Claim C3 witness: two concrete hits — one with a combined_context text,
one without — assemble to the two renderings joined by the separator, with
the second hit rendered as the JSON dump of its fields. -/
theorem assembleContext_joins_witness :
    assembleContext [hit1, hit2] =
      Except.ok ("ctx one" ++ contextSeparator ++ "\x7b\"id\":\"a\",\"text\":\"b\"\x7d")
  ∧ ([hit1, hit2].map renderHitTotal).length = 2 := by
  have h := assembleContext_joins_all_fragments_in_order [hit1, hit2]
    (by simp)
    (by
      intro x hm
      rcases List.mem_cons.mp hm with rfl | hm2
      · exact ⟨by simp [hit1], by simp [hit1]⟩
      · rcases List.mem_cons.mp hm2 with rfl | hm3
        · exact ⟨by simp [hit2], by simp [hit2]⟩
        · simp at hm3)
  exact ⟨h.1, h.2.1⟩

/-- Claim C7: every search request issued by `ask` is the fixed one: its body
sets query.top_k to 4, requests exactly the id and text fields, carries the
translated question as query.inputs.text, and its URL is scoped to the fixed
lurky-products namespace; moreover `ask` depends on the fetch function only
through its value at exactly that URL and body. -/
theorem ask_search_request_fixed_partition_topk_fields
    (env : Env) (g : String → JSValue → Except String FetchResponse)
    (host q host1 res : String)
    (hres : resolveHost env host = Except.ok host1)
    (htr0 : env.llmInvoke ragLLM translationTemplate [("text", q)] = Except.ok res)
    (hagree : g (searchUrl host1) (searchBody (jsTrim res)) =
      env.fetch (searchUrl host1) (searchBody (jsTrim res))) :
    jsProp (jsProp (searchBody (jsTrim res)) "query") "top_k" = JSValue.num 4
  ∧ jsProp (searchBody (jsTrim res)) "fields" = JSValue.arr [JSValue.str "id", JSValue.str "text"]
  ∧ jsProp (jsProp (jsProp (searchBody (jsTrim res)) "query") "inputs") "text"
      = JSValue.str (jsTrim res)
  ∧ searchUrl host1 = "https://" ++ host1 ++ "/records/namespaces/" ++ "lurky-products" ++ "/search"
  ∧ ask { env with fetch := g } host q = ask env host q := by
  have htr : translateToEnglish env q = Except.ok (jsTrim res) := translateToEnglish_of_ok htr0
  have htrg : translateToEnglish { env with fetch := g } q = Except.ok (jsTrim res) :=
    @translateToEnglish_of_ok { env with fetch := g } q res htr0
  refine ⟨rfl, rfl, rfl, rfl, ?_⟩
  rw [@ask_of_resolve_ok { env with fetch := g } host host1 q hres,
      @ask_of_resolve_ok env host host1 q hres,
      askAfterHost_of_tr_ok host1 htrg, askAfterHost_of_tr_ok host1 htr,
      searchStage_congr env { env with fetch := g } host1 q (jsTrim res) rfl hagree]

/-- Claim C7 witness: the request shape at a concrete world, and the
fetch-dependence conjunct applied with the same fetch function. -/
theorem ask_search_request_witness :
    jsProp (jsProp (searchBody (jsTrim " english q ")) "query") "top_k" = JSValue.num 4
  ∧ searchUrl "h1" = "https://" ++ "h1" ++ "/records/namespaces/" ++ "lurky-products" ++ "/search"
  ∧ ask { envEmptyHits with fetch := envEmptyHits.fetch } "h1" "hola" = ask envEmptyHits "h1" "hola" := by
  have h := ask_search_request_fixed_partition_topk_fields envEmptyHits envEmptyHits.fetch
    "h1" "hola" "h1" " english q " rfl rfl rfl
  exact ⟨h.1, h.2.2.2.1, h.2.2.2.2⟩

/-- Claim C8: the index endpoint handle is memoized: with a non-empty handle,
`ask` keeps it unchanged and its behaviour does not depend on the lookup at
all; a failed startup lookup leaves the handle as it was (empty); with an
empty handle the next `ask` resolves lazily and persists the looked-up host,
and a failed lazy lookup degrades the request and leaves the handle empty. -/
theorem indexHost_memoization (env : Env) (host q h e : String) :
    (host ≠ "" →
      (ask env host q).2 = host
      ∧ ∀ d, ask { env with describeIndex := d } host q = ask env host q)
  ∧ (env.describeIndex = Except.error e → onModuleInit env host = host)
  ∧ (env.describeIndex = Except.ok h → (ask env "" q).2 = h)
  ∧ (env.describeIndex = Except.error e →
      (ask env "" q).1 = degradedResult q e ∧ (ask env "" q).2 = "") := by
  refine ⟨fun hne => ⟨?_, fun d => ?_⟩, fun herr => ?_, fun hok => ?_, fun herr => ?_⟩
  · rw [@ask_of_resolve_ok env host host q (resolveHost_of_ne env hne)]
    cases askAfterHost env host q <;> rfl
  · exact ask_congr env { env with describeIndex := d } host q rfl rfl
      (by rw [resolveHost_of_ne { env with describeIndex := d } hne, resolveHost_of_ne env hne])
  · unfold onModuleInit
    rw [herr]
  · have hres : resolveHost env "" = Except.ok h := by
      unfold resolveHost
      rw [if_pos rfl, hok]
    rw [@ask_of_resolve_ok env "" h q hres]
    cases askAfterHost env h q <;> rfl
  · have hres : resolveHost env "" = Except.error e := by
      unfold resolveHost
      rw [if_pos rfl, herr]
    rw [@ask_of_resolve_error env "" e q hres]
    exact ⟨rfl, rfl⟩

/-- Claim C8 witness: the memoization facts evaluated in two concrete worlds,
one whose lookup succeeds with host hx and one whose lookup fails. -/
theorem indexHost_memoization_witness :
    (ask envOkResolve "h1" "q1").2 = "h1"
  ∧ onModuleInit envBadResolve "" = ""
  ∧ (ask envOkResolve "" "q1").2 = "hx"
  ∧ (ask envBadResolve "" "q1").1 = degradedResult "q1" "resolve failed" :=
  ⟨((indexHost_memoization envOkResolve "h1" "q1" "hx" "e0").1 (by decide)).1,
   (indexHost_memoization envBadResolve "" "q1" "hx" "resolve failed").2.1 rfl,
   (indexHost_memoization envOkResolve "" "q1" "hx" "e0").2.2.1 rfl,
   ((indexHost_memoization envBadResolve "" "q1" "hx" "resolve failed").2.2.2 rfl).1⟩

lemma brace_wrap_ne_empty (mid : String) : ("\x7b" ++ mid ++ "\x7d") ≠ "" := by
  intro hc
  have hlen := congrArg String.length hc
  rw [String.length_append, String.length_append] at hlen
  have h1 : ("\x7b" : String).length = 1 := rfl
  have h2 : ("\x7d" : String).length = 1 := rfl
  have h0 : ("" : String).length = 0 := rfl
  omega

/-- Claim C9: a hit whose fields contain a combined_context entry bound to a
falsy value (in particular the empty string) is rendered as the JSON dump of
all its raw fields — a nonempty string — not as the empty string, because
the code tests the text by truthiness, not key existence. -/
theorem renderHit_falsy_combined_context_dumps_fields
    (hit : JSValue) (fkv : List (String × JSValue)) (v : JSValue)
    (h1 : hit ≠ JSValue.null) (h2 : hit ≠ JSValue.undefined)
    (hf : jsProp hit "fields" = JSValue.obj fkv)
    (hv : jsLookup fkv "combined_context" = some v)
    (hfalsy : truthy v = false) :
    stringify (JSValue.obj fkv)
      = some ("\x7b" ++ String.intercalate "," (stringifyMembers fkv) ++ "\x7d")
  ∧ renderHit hit = Except.ok ("\x7b" ++ String.intercalate "," (stringifyMembers fkv) ++ "\x7d")
  ∧ ("\x7b" ++ String.intercalate "," (stringifyMembers fkv) ++ "\x7d") ≠ "" := by
  refine ⟨?_, ?_, brace_wrap_ne_empty _⟩
  · rfl
  · rw [renderHit_eq_total h1 h2]
    unfold renderHitTotal
    rw [hf]
    have hopt : jsOptProp (JSValue.obj fkv) "combined_context" = v := by
      show (jsLookup fkv "combined_context").getD JSValue.undefined = v
      rw [hv]
      rfl
    rw [hopt, jsOr_of_falsy hfalsy]
    rfl

/-- Claim C9 witness: a concrete hit whose combined_context is the empty
string renders as the JSON dump of its two fields and not as the empty
string. -/
theorem renderHit_falsy_witness :
    renderHit hitEmptyCtx = Except.ok "\x7b\"combined_context\":\"\",\"id\":\"x\"\x7d"
  ∧ renderHit hitEmptyCtx ≠ Except.ok "" := by
  have h := renderHit_falsy_combined_context_dumps_fields hitEmptyCtx
    [("combined_context", JSValue.str ""), ("id", JSValue.str "x")] (JSValue.str "")
    (by simp [hitEmptyCtx]) (by simp [hitEmptyCtx]) rfl rfl rfl
  refine ⟨h.2.1, ?_⟩
  rw [h.2.1]
  intro hc
  exact h.2.2 (Except.ok.inj hc)

/-- Claim C10: if the search succeeds with an OK status but the JSON body has
no result object or no result.hits list (the extracted hits value is falsy),
`ask` does not crash: the hits collapse to the empty list and the request
takes the fixed no-information path with no error. -/
theorem ask_missing_hits_treated_as_empty
    (env : Env) (host q host1 eq : String) (resp : FetchResponse) (rv : JSValue)
    (hres : resolveHost env host = Except.ok host1)
    (htr : translateToEnglish env q = Except.ok eq)
    (hf : env.fetch (searchUrl host1) (searchBody eq) = Except.ok resp)
    (hok : resp.ok = true)
    (hrv : jsPropE resp.json "result" = Except.ok rv)
    (hfalsy : truthy (jsOptProp rv "hits") = false) :
    (ask env host q).1 = noInfoResult q eq ∧ (ask env host q).1.error = none := by
  have hmain : ask env host q = (noInfoResult q eq, host1) := by
    rw [ask_of_resolve_ok q hres, askAfterHost_of_tr_ok host1 htr,
        searchStage_status_ok q hf hok hrv, jsOr_of_falsy hfalsy, hitsStage_empty]
  rw [hmain]
  exact ⟨rfl, rfl⟩

/-- Claim C10 witness: a concrete OK response whose body is an object with no
result key leads to the no-information result. -/
theorem ask_missing_hits_witness :
    (ask envNoResult "h2" "hola").1 = noInfoResult "hola" "eng" :=
  (ask_missing_hits_treated_as_empty envNoResult "h2" "hola" "h2" "eng"
    ⟨true, "OK", JSValue.obj [("status", JSValue.str "ok")]⟩ JSValue.undefined
    rfl rfl rfl rfl rfl rfl).1
